import Mathlib

/-!
Verification development for the press repository: a shallow embedding of the
layout generator, the size and percent value types, the parted interface
placement algorithm, and the OMSA server-management plugin flows, together with
theorems settling the specification claims.
-/

deriving instance DecidableEq for Except

namespace Press

/-! ### Python string primitives (modelled on CPython 2 semantics for ASCII data) -/

/-- Python str.isdigit for ASCII strings: non-empty and every character a digit. -/
def pyIsDigit (s : List Char) : Bool := !s.isEmpty && s.all Char.isDigit

/-- Numeric value of a digit string, as Python int() computes it (base 10). -/
def digitsVal (s : List Char) : Nat := s.foldl (fun a c => a * 10 + (c.toNat - 48)) 0

/-- Whether the first list is an initial segment of the second. -/
def leadsWith : List Char → List Char → Bool
  | [], _ => true
  | _ :: _, [] => false
  | a :: as, b :: bs => a = b && leadsWith as bs

/-- First index at or after i where needle occurs in hay, scanning left to right. -/
def findSubAux (needle : List Char) : List Char → Nat → Option Nat
  | [], i => if needle.isEmpty then some i else none
  | b :: bs, i => if leadsWith needle (b :: bs) then some i else findSubAux needle bs (i + 1)

/-- Python str.find: index of the first occurrence of needle, or -1. -/
def pyFind (hay needle : List Char) : Int :=
  match findSubAux needle hay 0 with
  | some i => (i : Int)
  | none => -1

/-- Python substring membership test (the in operator on strings). -/
def containsSub (needle hay : String) : Bool := (findSubAux needle.data hay.data 0).isSome

/-- Index of the first occurrence of a single character, if any. -/
def findChar (c : Char) : List Char → Option Nat
  | [] => none
  | a :: as => if a = c then some 0 else (findChar c as).map (· + 1)

/-- Python str.strip: remove leading and trailing whitespace. -/
def pyStrip (s : List Char) : List Char :=
  ((s.dropWhile Char.isWhitespace).reverse.dropWhile Char.isWhitespace).reverse

/-- Python str.split(c): split on every occurrence of the separator character. -/
def splitChar (c : Char) : List Char → List (List Char)
  | [] => [[]]
  | a :: as =>
    if a = c then [] :: splitChar c as
    else
      match splitChar c as with
      | [] => [[a]]
      | h :: t => (a :: h) :: t

/-- Python str.upper on ASCII data. -/
def pyUpper (s : List Char) : List Char := s.map Char.toUpper

/-! ### Size (src/press/structure/size.py) -/

/-- Size.yobibyte: 1024 to the 8th power. -/
def yobibyte : Int := 1024 ^ 8

/-- Size.tebibyte: 1024 to the 4th power. -/
def tebibyte : Int := 1024 ^ 4

/-- Size.symbols, in the listing order of the source dictionary. -/
def sizeSymbols : List (String × Int) :=
  [("b", 1), ("k", 1000), ("kB", 1000), ("KiB", 1024),
   ("M", 1000000), ("MB", 1000000), ("MiB", 1024 ^ 2),
   ("G", 10 ^ 9), ("GB", 10 ^ 9), ("GiB", 1024 ^ 3),
   ("T", 10 ^ 12), ("TB", 10 ^ 12), ("TiB", 1024 ^ 4),
   ("PB", 10 ^ 15), ("PiB", 1024 ^ 5), ("EB", 10 ^ 18), ("EiB", 1024 ^ 6),
   ("YB", 10 ^ 24), ("YiB", 1024 ^ 8), ("s", 512)]

/-- The possible runtime types of the value handed to Size._convert. -/
inductive SizeVal where
  | size (bytes : Int)
  | int (n : Int)
  | dec (q : ℚ)
  | str (s : String)
  | other
deriving DecidableEq

/-- Python 2 round (half away from zero) followed by int(), on an exact rational. -/
def pyRound (q : ℚ) : Int := if 0 ≤ q then ⌊q + 1/2⌋ else -⌊-q + 1/2⌋

/-- Split a character list into its leading digit run and the rest. -/
def takeDigits (s : List Char) : List Char × List Char :=
  (s.takeWhile Char.isDigit, s.dropWhile Char.isDigit)

/-- Digit run that must consume the whole remaining input, as an exponent needs. -/
def allDigitsVal (s : List Char) : Option Nat :=
  if pyIsDigit s then some (digitsVal s) else none

/-- Decimal(s): exact decimal-literal parsing of sign, digits, optional
fraction and optional exponent; anything else fails. The exact decimal value is
kept as an integer numerator over a positive power-of-ten denominator. -/
def pyDecimalParts (s : List Char) : Option (Int × Nat) :=
  let signAndRest : Int × List Char :=
    match s with
    | '+' :: r => (1, r)
    | '-' :: r => (-1, r)
    | r => (1, r)
  let ip := takeDigits signAndRest.2
  let fpAndRest : List Char × List Char :=
    match ip.2 with
    | '.' :: r => takeDigits r
    | r => ([], r)
  if ip.1.isEmpty && fpAndRest.1.isEmpty then none
  else
    let mantNum : Int :=
      signAndRest.1 * (digitsVal ip.1 * 10 ^ fpAndRest.1.length + digitsVal fpAndRest.1 : Nat)
    let mantDen : Nat := 10 ^ fpAndRest.1.length
    let expVal : Option Int :=
      match fpAndRest.2 with
      | [] => some 0
      | e :: r =>
        if e = 'e' || e = 'E' then
          match r with
          | '+' :: r2 => (allDigitsVal r2).map Int.ofNat
          | '-' :: r2 => (allDigitsVal r2).map (fun n => -(n : Int))
          | r2 => (allDigitsVal r2).map Int.ofNat
        else none
    match expVal with
    | none => none
    | some (.ofNat e) => some (mantNum * (10 : Int) ^ e, mantDen)
    | some (.negSucc e) => some (mantNum, mantDen * 10 ^ (e + 1))

/-- Python 2 int(round(a / b)) on an exact fraction with positive denominator:
round half away from zero. -/
def roundDiv (a : Int) (b : Nat) : Int :=
  let q : Nat := (2 * a.natAbs + b) / (2 * b)
  if 0 ≤ a then (q : Int) else -(q : Int)

/-- The suffix-search loop of the source: walk the symbol table in order and return
the first index of a symbol that occurs at a nonzero position; 0 if none does
(a hit at position 0 is falsy in Python and is skipped, as in the source). -/
def suffixLoop (s : List Char) : List (String × Int) → Nat
  | [] => 0
  | (k, _) :: rest =>
    match findSubAux k.data s 0 with
    | some i => if i = 0 then suffixLoop s rest else i
    | none => suffixLoop s rest

/-- Multiplier attached to a suffix in the symbol table, if the suffix is valid. -/
def symLookup (k : List Char) : Option Int :=
  (sizeSymbols.find? (fun p => p.1.data = k)).map (·.2)

/-- Size._convert: turn a raw configuration value into an exact byte count. -/
def sizeConvert (v : SizeVal) : Except String Int :=
  match v with
  | .size b => .ok b
  | .int n => if n > yobibyte then .error "Value is impossibly large." else .ok n
  | .dec q => .ok (pyRound q)
  | .other => .error "Value is not in a format I can understand"
  | .str s =>
    let cs := s.data
    if pyIsDigit cs then .ok (digitsVal cs : Int)
    else
      let idx := suffixLoop cs sizeSymbols
      if idx = 0 then .error "Value is not in a format I can understand. Invalid Suffix."
      else
        let val := pyStrip (cs.take idx)
        let suf := pyStrip (cs.drop idx)
        match symLookup suf with
        | none => .error "Value is not in a format I can understand. Invalid Suffix."
        | some mult =>
          match pyDecimalParts val with
          | none => .error "Value is not in a format I can understand. Could not convert value to int"
          | some pr => .ok (roundDiv (pr.1 * mult) pr.2)

/-- Size.over_2t: true when the byte count is at least 2 times 2 to the 40. -/
def over_2t (bytes : Int) : Bool := bytes ≥ 2 * tebibyte

/-! ### PercentString (src/press/structure/size.py) -/

/-- The state PercentString construction produces: the fraction and the
free-relative flag. -/
structure Percent where
  value : ℚ
  free : Bool
deriving DecidableEq

/-- PercentString.__init__ on the character list of the raw string. -/
def percentOfChars (cs : List Char) : Except String Percent :=
  match findChar '%' cs with
  | none => .error "Invalid expression"
  | some i =>
    if i > 3 then .error "Invalid expression"
    else
      match splitChar '%' cs with
      | [v, m] =>
        if pyIsDigit v then
          let n := digitsVal v
          if n > 100 then .error "greater than 100 percent"
          else .ok ⟨(n : ℚ) * (1 / 100), pyUpper m == "FREE".data⟩
        else .error "Invalid expression"
      | _ => .error "unpack error"

/-- PercentString.__init__ on a string. -/
def percentString (s : String) : Except String Percent := percentOfChars s.data

/-! ### Layout generator data shapes (src/press/generators/layout.py) -/

/-- A file_system configuration dictionary: the type key (absent keys are read
with a default of the string undefined) plus pass-through options we elide. -/
structure FSDict where
  fsType : Option String
deriving DecidableEq

/-- A generated filesystem descriptor. Modelled from the spec: the descriptor
classes (press.layout.filesystems, not under src) carry a type tag and a flag
saying whether an fsck is meaningful for the type; the concrete flag of each
class lives outside src, so generation takes it as the parameter rf. -/
structure FSObject where
  fsType : String
  require_fsck : Bool
deriving DecidableEq

/-- The type tags _fs_selector supports. -/
def fsSupported : List String := ["ext2", "ext3", "ext4", "swap", "xfs", "efi", "fat32"]

/-- generate_file_system: dispatch the type tag through _fs_selector. -/
def generateFileSystem (rf : String → Bool) (fd : FSDict) : Except String FSObject :=
  let t := fd.fsType.getD "undefined"
  if fsSupported.contains t then .ok ⟨t, rf t⟩
  else .error "type is not supported"

/-- The fsck pass value stored on a generated partition: either the Python
False sentinel written when no filesystem is attached, or an integer pass. -/
inductive FsckOption where
  | disabled
  | pass (n : Int)
deriving DecidableEq

/-- Python truthiness of an optional string (None and the empty string are falsy). -/
def truthyStr : Option String → Bool
  | none => false
  | some s => !(s == "")

/-- _fsck_pass: explicit configuration value wins; otherwise pass 1 for a
checking filesystem mounted at the root, pass 2 elsewhere, pass 0 when no check
is required or no mount point is set. Reading require_fsck off an absent
filesystem object is the AttributeError the source would raise. -/
def fsckPass (fs : Option FSObject) (explicit : Option Int) (mp : Option String) :
    Except String Int :=
  match explicit with
  | some v => .ok v
  | none =>
    match fs with
    | none => .error "AttributeError"
    | some f =>
      if f.require_fsck && truthyStr mp then
        if mp = some "/" then .ok 1 else .ok 2
      else .ok 0

/-- A size entry as either the raw configuration string or a parsed percent. -/
inductive SizeSpec where
  | raw (s : String)
  | percent (p : Percent)
deriving DecidableEq

/-- generate_size: strings holding a percent sign become PercentStrings,
anything else is passed through unparsed. -/
def generateSize (s : String) : Except String SizeSpec :=
  if s.data.contains '%' then (percentString s).map .percent else .ok (.raw s)

/-- Map a fallible function across a list, stopping at the first failure. -/
def mapEx {a b : Type} (f : a → Except String b) : List a → Except String (List b)
  | [] => .ok []
  | x :: xs =>
    match f x with
    | .error e => .error e
    | .ok y =>
      match mapEx f xs with
      | .error e => .error e
      | .ok ys => .ok (y :: ys)

/-- A partition configuration dictionary. -/
structure PartDict where
  name : Option String
  size : String
  mbr_type : Option String
  flags : Option (List String)
  file_system : Option FSDict
  mount_point : Option String
  fsck_option : Option Int
deriving DecidableEq

/-- A generated Partition object. Modelled from the spec: the Partition class
(press.layout, not under src) stores the constructor arguments verbatim. -/
structure Partition where
  type_or_name : String
  size_or_percent : SizeSpec
  flags : Option (List String)
  file_system : Option FSObject
  mount_point : Option String
  fsck_option : FsckOption
deriving DecidableEq

/-- generate_partition: build the filesystem object, compute the fsck pass
(the disabled sentinel when no filesystem is attached), parse the size, and
assemble the Partition. Linker registration is modelled separately. -/
def generatePartition (rf : String → Bool) (typeOrName : String) (d : PartDict) :
    Except String Partition :=
  match (match d.file_system with
         | some fd => (generateFileSystem rf fd).map some
         | none => .ok none : Except String (Option FSObject)) with
  | .error e => .error e
  | .ok fsObj =>
    match (match fsObj with
           | some f => (fsckPass (some f) d.fsck_option d.mount_point).map FsckOption.pass
           | none => .ok .disabled : Except String FsckOption) with
    | .error e => .error e
    | .ok fsck =>
      match generateSize d.size with
      | .error e => .error e
      | .ok sz => .ok ⟨typeOrName, sz, d.flags, fsObj, d.mount_point, fsck⟩

/-! ### MBR and GPT partition generation (src/press/generators/layout.py) -/

/-- MBR_LOGICAL_MAX. -/
def MBR_LOGICAL_MAX : Nat := 128

/-- Python truthiness filter on an optional string value. -/
def truthyOpt : Option String → Option String
  | some s => if s.isEmpty then none else some s
  | none => none

/-- _has_logical: some partition declares mbr_type logical, or more than four
partitions are declared. -/
def hasLogical (ps : List PartDict) : Bool :=
  ps.any (fun p => p.mbr_type == some "logical") || ps.length > 4

/-- _max_primary. -/
def maxPrimary (ps : List PartDict) : Nat := if hasLogical ps then 3 else 4

/-- One step of the _generate_mbr_partitions role walk: updated primary and
logical counters plus the role handed to generate_partition. -/
def mbrRoleStep (maxP pCnt lCnt : Nat) (d : PartDict) :
    Except String (Nat × Nat × String) :=
  match truthyOpt d.mbr_type with
  | some t =>
    if t = "primary" then
      if pCnt ≥ maxP then .error "Maximum logical partitions have been exceeded"
      else .ok (pCnt + 1, lCnt, "primary")
    else if t = "logical" then
      if lCnt > MBR_LOGICAL_MAX then .error "Maximum logical partitions have been exceeded"
      else .ok (pCnt, lCnt + 1, "logical")
    else .ok (pCnt, lCnt, t)
  | none =>
    if pCnt < maxP then .ok (pCnt + 1, lCnt, "primary")
    else if lCnt > MBR_LOGICAL_MAX then .error "Maximum logical partitions have been exceeded"
    else .ok (pCnt, lCnt + 1, "logical")

/-- The _generate_mbr_partitions loop over the declared partitions. -/
def genMBRAux (rf : String → Bool) (maxP : Nat) :
    Nat → Nat → List PartDict → Except String (List Partition)
  | _, _, [] => .ok []
  | pCnt, lCnt, d :: ds =>
    match mbrRoleStep maxP pCnt lCnt d with
    | .error e => .error e
    | .ok (p', l', role) =>
      match generatePartition rf role d with
      | .error e => .error e
      | .ok part =>
        match genMBRAux rf maxP p' l' ds with
        | .error e => .error e
        | .ok rest => .ok (part :: rest)

/-- _generate_mbr_partitions. -/
def generateMbrPartitions (rf : String → Bool) (ps : List PartDict) :
    Except String (List Partition) :=
  genMBRAux rf (maxPrimary ps) 0 0 ps

/-- The _generate_gpt_partitions loop: declared name or p plus the 0-based index. -/
def genGptAux (rf : String → Bool) : Nat → List PartDict → Except String (List Partition)
  | _, [] => .ok []
  | n, d :: ds =>
    match generatePartition rf (d.name.getD ("p" ++ toString n)) d with
    | .error e => .error e
    | .ok part =>
      match genGptAux rf (n + 1) ds with
      | .error e => .error e
      | .ok rest => .ok (part :: rest)

/-- _fill_defaults applied with _partition_defaults: an absent flags key
becomes the empty list. -/
def fillPartDefaults (d : PartDict) : PartDict := { d with flags := some (d.flags.getD []) }

/-- generate_partitions: fill partition defaults and dispatch on the table type. -/
def generatePartitions (rf : String → Bool) (tableType : String) (ps : List PartDict) :
    Except String (List Partition) :=
  let ps := ps.map fillPartDefaults
  if tableType = "msdos" then generateMbrPartitions rf ps
  else if tableType = "gpt" then genGptAux rf 0 ps
  else .error "Table type is invalid"

/-! ### Disk-label auto-selection (src/press/generators/layout.py) -/

/-- A discovered disk: device name and its size in bytes. -/
structure Disk where
  devname : String
  sizeBytes : Int
deriving DecidableEq

/-- Modelled from the spec: the Layout aggregate (press.layout, not under src)
holds the insertion-ordered disk mapping and the unallocated disk list. -/
structure Layout where
  disks : List Disk
  unallocated : List Disk
deriving DecidableEq

/-- Modelled from the spec: Layout.find_device_by_size returns the first
unallocated disk whose size is at least the target. -/
def findDeviceBySize (l : Layout) (s : Int) : Option Disk :=
  l.unallocated.find? (fun d => d.sizeBytes ≥ s)

/-- Modelled from the spec: Layout.find_device_by_ref resolves an explicit
device reference. -/
def findDeviceByRef (l : Layout) (r : String) : Option Disk :=
  l.disks.find? (fun d => d.devname == r)

/-- A partition_table configuration dictionary. -/
structure TableDict where
  disk : String
  label : Option String
  partition_start : Option Int
  alignment : Option Int
  partitions : List PartDict
deriving DecidableEq

/-- The layout-level configuration keys set_disk_labels reads. -/
structure LayoutConfig where
  partition_tables : List TableDict
  no_bios_boot_partition : Bool
deriving DecidableEq

/-- The fixed-size sum computed for an any disk reference: percent strings are
skipped, everything else goes through Size. -/
def sumFixedSizesAux : Int → List PartDict → Except String Int
  | acc, [] => .ok acc
  | acc, p :: ps =>
    if p.size.data.contains '%' then sumFixedSizesAux acc ps
    else
      match sizeConvert (.str p.size) with
      | .error e => .error e
      | .ok n => sumFixedSizesAux (acc + n) ps

/-- The fixed-size sum entry point, starting from Size(0). -/
def sumFixedSizes (ps : List PartDict) : Except String Int := sumFixedSizesAux 0 ps

/-- Resolution of the disk reference of a partition table inside set_disk_labels. -/
def resolveDisk (l : Layout) (t : TableDict) : Except String Disk :=
  if t.disk = "first" then
    match l.unallocated with
    | d :: _ => .ok d
    | [] => .error "IndexError"
  else if t.disk = "any" then
    match sumFixedSizes t.partitions with
    | .error e => .error e
    | .ok total =>
      match findDeviceBySize l total with
      | some d => .ok d
      | none => .error "no device of sufficient size"
  else
    match findDeviceByRef l t.disk with
    | some d => .ok d
    | none => .error "no device for reference"

/-- The partition dictionary add_bios_boot_partition inserts. -/
def biosBootDict : PartDict :=
  ⟨some "BIOS boot partition", "1MiB", none, some ["bios_grub"], none, none, none⟩

/-- add_bios_boot_partition: prepend the BIOS boot partition unless the list is
empty or its first entry already carries the bios_grub flag. -/
def addBiosBootPartition (t : TableDict) : TableDict :=
  match t.partitions with
  | [] => t
  | p0 :: _ =>
    if (p0.flags.getD []).contains "bios_grub" then t
    else { t with partitions := biosBootDict :: t.partitions }

/-- The partition dictionary add_efi_boot_partition inserts. -/
def efiBootDict : PartDict :=
  ⟨some "EFI", "253MiB", none, some ["boot"], some ⟨some "efi"⟩, some "/boot/efi", none⟩

/-- add_efi_boot_partition: prepend the EFI system partition unless a partition
with an efi filesystem is already declared. -/
def addEfiBootPartition (t : TableDict) : TableDict :=
  if t.partitions.any (fun p =>
      match p.file_system with
      | some fd => fd.fsType == some "efi"
      | none => false) then t
  else { t with partitions := efiBootDict :: t.partitions }

/-- layout.disks.keys().index(devname): position in the insertion-ordered disk
mapping, a ValueError when the name is absent. -/
def diskIndex (l : Layout) (devname : String) : Except String Nat :=
  match l.disks.findIdx? (fun d => d.devname == devname) with
  | some i => .ok i
  | none => .error "ValueError"

/-- The per-table body of set_disk_labels. -/
def setDiskLabelTable (hasEfi : Bool) (l : Layout) (noBios : Bool) (t : TableDict) :
    Except String TableDict :=
  match resolveDisk l t with
  | .error e => .error e
  | .ok disk =>
    if !hasEfi then
      if over_2t disk.sizeBytes then
        if !noBios then
          match diskIndex l disk.devname with
          | .error e => .error e
          | .ok idx =>
            .ok { (if idx = 0 then addBiosBootPartition t else t) with label := some "gpt" }
        else .ok { t with label := some "gpt" }
      else if t.label = some "gpt" then
        .ok { addBiosBootPartition t with label := some "gpt" }
      else .ok { t with label := some "msdos" }
    else
      match diskIndex l disk.devname with
      | .error e => .error e
      | .ok idx =>
        .ok { (if idx = 0 then addEfiBootPartition t else t) with label := some "gpt" }

/-- set_disk_labels over every declared partition table. -/
def setDiskLabels (hasEfi : Bool) (l : Layout) (cfg : LayoutConfig) :
    Except String LayoutConfig :=
  match mapEx (setDiskLabelTable hasEfi l cfg.no_bios_boot_partition) cfg.partition_tables with
  | .error e => .error e
  | .ok ts => .ok { cfg with partition_tables := ts }

/-! ### PartedInterface.create_partition (src/press/parted.py) -/

/-- One row of the parsed partition table report. -/
structure PartInfo where
  number : Int
  startB : Int
  endB : Int
  sizeB : Int
  ptype : Option String
deriving DecidableEq

/-- PartedInterface.last_partition: the final parsed row, if any. -/
def lastPartitionOf (ps : List PartInfo) : Option PartInfo := ps.getLast?

/-- PartedInterface.extended_partition: only meaningful on msdos tables, the
row whose role column reads extended. -/
def extendedPartitionOf (label : String) (ps : List PartInfo) : Option PartInfo :=
  if label ≠ "msdos" then none
  else ps.find? (fun p => p.ptype == some "extended")

/-- The commands create_partition ends up issuing: the optional extended
partition it creates first, and the start, end and number of the new partition. -/
structure CreateResult where
  extendedMk : Option (Int × Int)
  startB : Int
  endB : Int
  number : Int
deriving DecidableEq

/-- PartedInterface.create_partition: compute the start offset (the configured
default, or the last end rounded up by the alignment formula), the partition
number, the too-big check, and the msdos logical special case that first makes
an extended partition, advances the start and forces number 5. The end offset
is fixed before that adjustment, as in the source. -/
def createPartition (label : String) (tableSize partitionStart alignment : Int)
    (parts : List PartInfo) (typeOrName : String) (partSize : Int) :
    Except String CreateResult :=
  match (match lastPartitionOf parts with
         | none => .ok (partitionStart, (1 : Int))
         | some lp =>
           if alignment = 0 then .error "ZeroDivisionError"
           else .ok (lp.endB + (alignment - lp.endB % alignment), lp.number + 1) :
           Except String (Int × Int)) with
  | .error e => .error e
  | .ok (startB, number) =>
    if startB + partSize ≥ tableSize then .error "The partition is too big."
    else
      if typeOrName = "logical" ∧ label = "msdos" ∧ extendedPartitionOf label parts = none then
        .ok ⟨some (startB, tableSize - 1), startB + partitionStart, startB + partSize, 5⟩
      else
        .ok ⟨none, startB, startB + partSize, number⟩

/-! ### Volume group generation (src/press/generators/layout.py) -/

/-- A logical_volumes entry of a volume group dictionary. -/
structure LVDict where
  name : String
  size : String
  file_system : Option FSDict
  mount_point : Option String
  fsck_option : Option Int
deriving DecidableEq

/-- A volume_groups entry of the configuration. -/
structure VGDict where
  name : String
  pe_size : Option String
  physical_volumes : List String
  logical_volumes : Option (List LVDict)
deriving DecidableEq

/-- A generated LogicalVolume. Modelled from the spec: the LogicalVolume class
(press.layout.lvm, not under src) stores the constructor arguments verbatim. -/
structure LogicalVolume where
  name : String
  size_or_percent : SizeSpec
  file_system : Option FSObject
  mount_point : Option String
  fsck_option : Int
deriving DecidableEq

/-- A generated VolumeGroupModel: name, extent size, resolved physical-volume
members and attached logical volumes. -/
structure VGModel where
  name : String
  pe_size : String
  physical_volumes : List Partition
  logical_volumes : List LogicalVolume
deriving DecidableEq

/-- The sort key of the logical-volume reorder: the count of path separators in
the mount point, an absent mount point reading as the empty string. -/
def mountDepth (lv : LVDict) : Nat :=
  ((lv.mount_point.getD "").data.filter (· = '/')).length

/-- Insert into a key-sorted list after every element of smaller key, keeping
elements of equal key in their existing order. -/
def stableInsert {α : Type} (key : α → Nat) (x : α) : List α → List α
  | [] => [x]
  | y :: ys => if key x ≤ key y then x :: y :: ys else y :: stableInsert key x ys

/-- Python list.sort with a key function: a stable ascending sort. -/
def stableSortKey {α : Type} (key : α → Nat) : List α → List α
  | [] => []
  | x :: xs => stableInsert key x (stableSortKey key xs)

/-- The logical-volume body of generate_volume_group_models: filesystem, fsck
pass through _fsck_pass (which an absent filesystem plus an absent explicit
option makes crash), size, then the LogicalVolume. -/
def generateLV (rf : String → Bool) (lv : LVDict) : Except String LogicalVolume :=
  match (match lv.file_system with
         | some fd => (generateFileSystem rf fd).map some
         | none => .ok none : Except String (Option FSObject)) with
  | .error e => .error e
  | .ok fs =>
    match fsckPass fs lv.fsck_option lv.mount_point with
    | .error e => .error e
    | .ok fsck =>
      match generateSize lv.size with
      | .error e => .error e
      | .ok sz => .ok ⟨lv.name, sz, fs, lv.mount_point, fsck⟩

/-- The per-group body of generate_volume_group_models: fill the pe_size
default, require and resolve the physical volumes through the lvm linker, sort
the declared logical volumes by mount depth and attach them. -/
def processVG (rf : String → Bool) (pvLinker : List (String × Partition)) (vg : VGDict) :
    Except String VGModel :=
  if vg.physical_volumes.isEmpty then .error "No physical volumes are defined"
  else
    match mapEx (fun nm =>
        match (pvLinker.find? (fun kv => kv.1 == nm)).map (·.2) with
        | some p => (.ok p : Except String Partition)
        | none => .error "invalid ref") vg.physical_volumes with
    | .error e => .error e
    | .ok pvs =>
      match vg.logical_volumes with
      | none => .error "AttributeError"
      | some lvds =>
        match mapEx (generateLV rf) (stableSortKey mountDepth lvds) with
        | .error e => .error e
        | .ok lvs => .ok ⟨vg.name, vg.pe_size.getD "4MiB", pvs, lvs⟩

/-- generate_volume_group_models: fails on an empty lvm linker, then processes
each declared group. The process-wide linker dictionary is passed explicitly. -/
def generateVolumeGroupModels (rf : String → Bool) (pvLinker : List (String × Partition))
    (vgs : List VGDict) : Except String (List VGModel) :=
  if pvLinker.isEmpty then .error "pv_linker is null"
  else mapEx (processVG rf pvLinker) vgs

/-! ### OMSA server-management plugin (src/press/plugins/server_management/omsa.py) -/

/-- The target surface the RedHat OMSA flows consume: the detected product name
and whether installing a given package list reports failure (a truthy result of
install_packages). -/
structure RHTarget where
  product_name : String
  installFails : List String → Bool

/-- The externally visible steps of a RedHat OMSA run. -/
inductive SMAction where
  | baselineYum (proxy : Option String)
  | installWget
  | bootstrap (url : String) (proxy : Option String)
  | installPackages (pkgs : List String)
  | serviceStop (name : String)
  | revertYum (proxy : Option String)
deriving DecidableEq

/-- The ServerManagementException raised on a failed package-set install,
carrying the failed set. -/
inductive SMErr where
  | installFailed (pkgs : List String)
deriving DecidableEq

/-- OMSARedHat.base_omsa_packages. -/
def baseOmsaPackages : List String := ["srvadmin-all"]

/-- OMSARedHat.gen12_omsa_packages. -/
def gen12OmsaPackages : List String := ["srvadmin-idrac7", "srvadmin-idracadm7"]

/-- OMSARedHat.gen12_chassis. -/
def gen12Chassis : List String := ["R720", "R820"]

/-- OMSARedHat.omsa_bootstrap_url. -/
def omsaBootstrapUrl : String := "https://mirror.rackspace.com/dell/hardware/dsu/bootstrap.cgi"

/-- OMSARedHat.open_manage_packages: the base agent package, extended by the
iDRAC pair once per gen-12 chassis substring the product name contains. -/
def openManagePackages (productName : String) : List String :=
  gen12Chassis.foldl
    (fun acc c => if containsSub c productName then acc ++ gen12OmsaPackages else acc)
    baseOmsaPackages

/-- OMSARedHat.install_openmanage: install the computed set, raising the
package-specific error when the target reports failure. -/
def installOpenmanageRedHat (t : RHTarget) : Except SMErr (List SMAction) :=
  let pkgs := openManagePackages t.product_name
  if t.installFails pkgs then .error (.installFailed pkgs)
  else .ok [.installPackages pkgs]

/-- OMSARedHat.run, shared by the base class and OMSARHEL7: baseline yum,
install wget, bootstrap the vendor repository, install the package set, revert
yum. An install failure propagates before the revert step. -/
def runOMSARedHat (proxy : Option String) (t : RHTarget) : Except SMErr (List SMAction) :=
  match installOpenmanageRedHat t with
  | .error e => .error e
  | .ok inst =>
    .ok ([.baselineYum proxy, .installWget, .bootstrap omsaBootstrapUrl proxy]
      ++ inst ++ [.revertYum proxy])

/-- OMSARHEL6.install_openmanage: install the computed set without inspecting
the result, then stop the two legacy services. -/
def installOpenmanageRHEL6 (t : RHTarget) : List SMAction :=
  [.installPackages (openManagePackages t.product_name),
   .serviceStop "sblim-sfcb", .serviceStop "dataeng"]

/-- OMSARHEL6.run: the inherited run with the overridden install step, which
never raises. -/
def runOMSARHEL6 (proxy : Option String) (t : RHTarget) : Except SMErr (List SMAction) :=
  .ok ([.baselineYum proxy, .installWget, .bootstrap omsaBootstrapUrl proxy]
    ++ installOpenmanageRHEL6 t ++ [.revertYum proxy])

/-- The filesystem and fsck portion of generate_software_raid: the same policy
as partitions, including the disabled sentinel when no filesystem is declared. -/
def raidFsckOption (rf : String → Bool) (fs : Option FSDict) (explicit : Option Int)
    (mp : Option String) : Except String FsckOption :=
  match fs with
  | some fd =>
    match generateFileSystem rf fd with
    | .error e => .error e
    | .ok fo => (fsckPass (some fo) explicit mp).map FsckOption.pass
  | none => .ok .disabled

/-- A requires-fsck assignment used for concrete instances whose filesystems
never matter. -/
def rf0 : String → Bool := fun _ => false

/-- A partition dictionary declaring no explicit MBR role. -/
def noRoleDict : PartDict := ⟨some "n", "100", none, some [], none, none, none⟩

/-- A partition dictionary declaring the logical MBR role explicitly. -/
def logiDict : PartDict := ⟨some "n", "100", some "logical", some [], none, none, none⟩

/-- The Partition generate_partition builds from logiDict with the logical role. -/
def logiPart : Partition := ⟨"logical", .raw "100", some [], none, none, .disabled⟩

/-! ### Helper lemmas -/

/-- findChar locates the separator right after an occurrence-free block. -/
theorem findChar_append_of_not_mem {c : Char} {xs ys : List Char} (h : c ∉ xs) :
    findChar c (xs ++ c :: ys) = some xs.length := by
  induction xs with
  | nil => simp [findChar]
  | cons a as ih =>
    have ha : ¬(a = c) := fun he => h (he ▸ List.mem_cons_self a as)
    have h' : c ∉ as := fun hm => h (List.mem_cons_of_mem _ hm)
    simp [findChar, ha, ih h']

/-- splitChar leaves a separator-free list whole. -/
theorem splitChar_of_not_mem {c : Char} {xs : List Char} (h : c ∉ xs) :
    splitChar c xs = [xs] := by
  induction xs with
  | nil => simp [splitChar]
  | cons a as ih =>
    have ha : ¬(a = c) := fun he => h (he ▸ List.mem_cons_self a as)
    have h' : c ∉ as := fun hm => h (List.mem_cons_of_mem _ hm)
    simp [splitChar, ha, ih h']

/-- splitChar peels a separator-free block off the front. -/
theorem splitChar_append {c : Char} {xs ys : List Char} (hx : c ∉ xs) :
    splitChar c (xs ++ c :: ys) = xs :: splitChar c ys := by
  induction xs with
  | nil => simp [splitChar]
  | cons a as ih =>
    have ha : ¬(a = c) := fun he => hx (he ▸ List.mem_cons_self a as)
    have h' : c ∉ as := fun hm => hx (List.mem_cons_of_mem _ hm)
    simp [splitChar, ha, ih h']

/-! ### Claim theorems: Size and PercentString -/

/-- C5: parsing the string 1GiB yields exactly 1073741824 bytes, parsing 1GB
yields exactly 1000000000 bytes, a purely numeric string yields that many bytes
exactly, and an integer greater than 2 to the 80 fails with the invalid-input
error (the yobibyte ceiling equals 2 to the 80). -/
theorem claim5_size_construction :
    sizeConvert (.str "1GiB") = .ok 1073741824 ∧
    sizeConvert (.str "1GB") = .ok 1000000000 ∧
    (∀ s : String, pyIsDigit s.data = true →
      sizeConvert (.str s) = .ok (digitsVal s.data : Int)) ∧
    yobibyte = 2 ^ 80 ∧
    (∀ n : Int, 2 ^ 80 < n → sizeConvert (.int n) = .error "Value is impossibly large.") := by
  refine ⟨by decide, by decide, ?_, by norm_num [yobibyte], ?_⟩
  · intro s h
    simp [sizeConvert, h]
  · intro n h
    have hy : yobibyte < n := by
      calc yobibyte = 2 ^ 80 := by norm_num [yobibyte]
        _ < n := h
    simp [sizeConvert, hy]

/-- Witness for C5 at the concrete inputs 123 and 2 to the 80 plus one. -/
theorem claim5_size_construction_witness :
    sizeConvert (.str "123") = .ok (digitsVal "123".data : Int) ∧
    sizeConvert (.int (2 ^ 80 + 1)) = .error "Value is impossibly large." :=
  ⟨claim5_size_construction.2.2.1 "123" (by decide),
   claim5_size_construction.2.2.2.2 (2 ^ 80 + 1) (by norm_num)⟩

/-- C8: 40 percent FREE yields the fraction 0.40 with the free flag set, 101
percent and a non-numeric prefix fail with invalid input, and any string whose
first percent sign sits after position 3 (more than 3 characters before it)
fails. -/
theorem claim8_percent_string :
    percentString "40%FREE" = .ok ⟨(40 : ℚ) * (1 / 100), true⟩ ∧
    percentString "101%" = .error "greater than 100 percent" ∧
    percentString "abc%" = .error "Invalid expression" ∧
    (∀ (s : String) (i : Nat), findChar '%' s.data = some i → 3 < i →
      percentString s = .error "Invalid expression") := by
  refine ⟨by rfl, by rfl, by rfl, ?_⟩
  intro s i h hi
  simp [percentString, percentOfChars, h, hi]

/-- Witness for C8 at the concrete input with four digits before the percent. -/
theorem claim8_percent_string_witness :
    percentString "1234%" = .error "Invalid expression" :=
  claim8_percent_string.2.2.2 "1234%" 4 (by decide) (by decide)

/-- C10: one to three digits of value at most 100, then a percent sign, then
any percent-free suffix: construction succeeds, and the free flag is set
exactly when the suffix upper-cases to FREE. -/
theorem claim10_percent_suffix (ds m : List Char) (h1 : ds ≠ []) (h2 : ds.length ≤ 3)
    (h3 : ∀ c ∈ ds, c.isDigit = true) (h4 : digitsVal ds ≤ 100) (h5 : '%' ∉ m) :
    percentOfChars (ds ++ '%' :: m) =
      .ok ⟨(digitsVal ds : ℚ) * (1 / 100), pyUpper m == "FREE".data⟩ ∧
    ((pyUpper m == "FREE".data) = true ↔ pyUpper m = "FREE".data) := by
  have hds : '%' ∉ ds := by
    intro hin
    have := h3 '%' hin
    simp [Char.isDigit] at this
  constructor
  · have hfind : findChar '%' (ds ++ '%' :: m) = some ds.length :=
      findChar_append_of_not_mem hds
    have hsplit : splitChar '%' (ds ++ '%' :: m) = [ds, m] := by
      rw [splitChar_append hds, splitChar_of_not_mem h5]
    have hdig : pyIsDigit ds = true := by
      simp [pyIsDigit, List.isEmpty_iff, h1, List.all_eq_true]
      exact h3
    have hle : ¬(3 < ds.length) := by omega
    have hle2 : ¬(100 < digitsVal ds) := by omega
    simp [percentOfChars, hfind, hsplit, hdig, hle, hle2]
  · exact beq_iff_eq ..

/-- Witness for C10 at the concrete input 40 percent bogus. -/
theorem claim10_percent_suffix_witness :
    percentOfChars ("40".data ++ '%' :: "bogus".data) =
      .ok ⟨(digitsVal "40".data : ℚ) * (1 / 100), pyUpper "bogus".data == "FREE".data⟩ :=
  (claim10_percent_suffix "40".data "bogus".data (by decide) (by decide) (by decide)
    (by decide) (by decide)).1

/-! ### Claim theorems: MBR role assignment -/

/-- A successful generate_partition call labels the result with the role it was
handed. -/
theorem generatePartition_role {rf : String → Bool} {t : String} {d : PartDict}
    {p : Partition} (h : generatePartition rf t d = .ok p) : p.type_or_name = t := by
  unfold generatePartition at h
  split at h
  · exact absurd h (by simp)
  · split at h
    · exact absurd h (by simp)
    · split at h
      · exact absurd h (by simp)
      · have h' := Except.ok.inj h
        subst h'
        rfl

/-- Role pattern of a successful run over partitions with no explicit role:
primary until the cap is reached at the current primary count, logical after. -/
theorem genMBRAux_noRole {rf : String → Bool} (maxP : Nat) (ds : List PartDict) :
    ∀ (p l : Nat) (parts : List Partition),
      (∀ d ∈ ds, truthyOpt d.mbr_type = none) →
      genMBRAux rf maxP p l ds = .ok parts →
      parts.map Partition.type_or_name =
        List.replicate (min ds.length (maxP - p)) "primary" ++
        List.replicate (ds.length - (maxP - p)) "logical" := by
  induction ds with
  | nil =>
    intro p l parts _ h
    have h' := Except.ok.inj h
    subst h'
    simp
  | cons d ds ih =>
    intro p l parts hall h
    have hd : truthyOpt d.mbr_type = none := hall d (List.mem_cons_self d ds)
    have hds : ∀ x ∈ ds, truthyOpt x.mbr_type = none :=
      fun x hx => hall x (List.mem_cons_of_mem _ hx)
    unfold genMBRAux at h
    simp only [mbrRoleStep, hd] at h
    by_cases hp : p < maxP
    · rw [if_pos hp] at h
      cases hgen : generatePartition rf "primary" d with
      | error e => simp [hgen] at h
      | ok part =>
        simp only [hgen] at h
        cases hrec : genMBRAux rf maxP (p + 1) l ds with
        | error e => simp [hrec] at h
        | ok rest =>
          simp only [hrec] at h
          have h' := Except.ok.inj h
          subst h'
          have e1 : min (ds.length + 1) (maxP - p) = min ds.length (maxP - (p + 1)) + 1 := by
            omega
          have e2 : (ds.length + 1) - (maxP - p) = ds.length - (maxP - (p + 1)) := by omega
          simp only [List.map_cons, List.length_cons, e1, e2, List.replicate_succ,
            List.cons_append]
          exact congrArg₂ _ (generatePartition_role hgen) (ih (p + 1) l rest hds hrec)
    · rw [if_neg hp] at h
      by_cases hl : l > MBR_LOGICAL_MAX
      · rw [if_pos hl] at h; exact absurd h (by simp)
      · rw [if_neg hl] at h
        cases hgen : generatePartition rf "logical" d with
        | error e => simp [hgen] at h
        | ok part =>
          simp only [hgen] at h
          cases hrec : genMBRAux rf maxP p (l + 1) ds with
          | error e => simp [hrec] at h
          | ok rest =>
            simp only [hrec] at h
            have h' := Except.ok.inj h
            subst h'
            have h0 : maxP - p = 0 := by omega
            have e1 : min (ds.length + 1) 0 = 0 := by omega
            simp only [List.map_cons, List.length_cons, h0, e1, Nat.sub_zero,
              List.replicate_succ, List.replicate_zero, List.nil_append]
            have := ih p (l + 1) rest hds hrec
            simp only [h0, Nat.sub_zero] at this
            have e3 : min ds.length 0 = 0 := by omega
            rw [e3, List.replicate_zero, List.nil_append] at this
            exact congrArg₂ _ (generatePartition_role hgen) this

/-- C2: the primary cap is 3 exactly when a partition explicitly declares the
logical role or more than 4 partitions are declared, else 4; an unspecified
role becomes primary while the primary count is under the cap and logical
afterwards (both stepwise and, for a run over partitions with no explicit
roles, as the resulting role pattern); 5 role-free partitions come out as
three primaries followed by two logicals. -/
theorem claim2_mbr_roles :
    (∀ ps : List PartDict,
      maxPrimary ps =
        if (∃ p ∈ ps, p.mbr_type = some "logical") ∨ 4 < ps.length then 3 else 4) ∧
    (∀ (maxP p l : Nat) (d : PartDict), truthyOpt d.mbr_type = none →
      (p < maxP → mbrRoleStep maxP p l d = .ok (p + 1, l, "primary")) ∧
      (maxP ≤ p → l ≤ MBR_LOGICAL_MAX → mbrRoleStep maxP p l d = .ok (p, l + 1, "logical"))) ∧
    (∀ (rf : String → Bool) (ds : List PartDict) (parts : List Partition),
      (∀ d ∈ ds, truthyOpt d.mbr_type = none) →
      generateMbrPartitions rf ds = .ok parts →
      parts.map Partition.type_or_name =
        List.replicate (min ds.length (maxPrimary ds)) "primary" ++
        List.replicate (ds.length - maxPrimary ds) "logical") ∧
    ((generateMbrPartitions rf0 (List.replicate 5 noRoleDict)).map
        (fun parts => parts.map Partition.type_or_name) =
      .ok ["primary", "primary", "primary", "logical", "logical"]) := by
  refine ⟨?_, ?_, ?_, by decide⟩
  · intro ps
    have hiff : hasLogical ps = true ↔
        ((∃ p ∈ ps, p.mbr_type = some "logical") ∨ 4 < ps.length) := by
      simp [hasLogical, List.any_eq_true]
    unfold maxPrimary
    by_cases hb : hasLogical ps = true
    · rw [if_pos hb, if_pos (hiff.mp hb)]
    · rw [if_neg hb, if_neg (fun hq => hb (hiff.mpr hq))]
  · intro maxP p l d hd
    constructor
    · intro hp
      simp [mbrRoleStep, hd, hp]
    · intro hp hl
      have h1 : ¬(p < maxP) := by omega
      have h2 : ¬(l > MBR_LOGICAL_MAX) := by omega
      simp [mbrRoleStep, hd, h1, h2]
  · intro rf ds parts hall h
    have := genMBRAux_noRole (maxPrimary ds) ds 0 0 parts hall h
    simpa using this

/-- Witness for C2: the stepwise clauses and the role-pattern clause discharged
at the concrete five-partition run. -/
theorem claim2_mbr_roles_witness :
    mbrRoleStep 3 0 0 noRoleDict = .ok (1, 0, "primary") ∧
    mbrRoleStep 3 3 0 noRoleDict = .ok (3, 1, "logical") ∧
    ([⟨"primary", .raw "100", some [], none, none, .disabled⟩,
      ⟨"primary", .raw "100", some [], none, none, .disabled⟩,
      ⟨"primary", .raw "100", some [], none, none, .disabled⟩,
      ⟨"logical", .raw "100", some [], none, none, .disabled⟩,
      ⟨"logical", .raw "100", some [], none, none, .disabled⟩] : List Partition).map
        Partition.type_or_name =
      List.replicate (min (List.replicate 5 noRoleDict).length
          (maxPrimary (List.replicate 5 noRoleDict))) "primary" ++
      List.replicate ((List.replicate 5 noRoleDict).length -
          maxPrimary (List.replicate 5 noRoleDict)) "logical" :=
  ⟨(claim2_mbr_roles.2.1 3 0 0 noRoleDict (by decide)).1 (by decide),
   (claim2_mbr_roles.2.1 3 3 0 noRoleDict (by decide)).2 (by decide) (by decide),
   claim2_mbr_roles.2.2.1 rf0 (List.replicate 5 noRoleDict) _ (by decide) (by decide)⟩

/-- The role step on an explicit-logical dictionary, fully reduced. -/
theorem mbrRoleStep_logi (p l : Nat) :
    mbrRoleStep 3 p l logiDict =
      if l > MBR_LOGICAL_MAX then .error "Maximum logical partitions have been exceeded"
      else .ok (p, l + 1, "logical") := rfl

/-- A run over n explicit-logical partitions succeeds while the final logical
count stays at or below 129. -/
theorem genMBRAux_logical_ok (n : Nat) :
    ∀ p l : Nat, l + n ≤ 129 →
      genMBRAux rf0 3 p l (List.replicate n logiDict) = .ok (List.replicate n logiPart) := by
  induction n with
  | zero => intro p l _; rfl
  | succ n ih =>
    intro p l hle
    have hl : ¬(l > MBR_LOGICAL_MAX) := by
      simp only [MBR_LOGICAL_MAX]
      omega
    rw [List.replicate_succ, List.replicate_succ]
    unfold genMBRAux
    rw [mbrRoleStep_logi, if_neg hl]
    have hgen : generatePartition rf0 "logical" logiDict = .ok logiPart := by decide
    simp only [hgen]
    rw [ih p (l + 1) (by omega)]

/-- A run over n explicit-logical partitions fails once the logical count
passes 129. -/
theorem genMBRAux_logical_err (n : Nat) :
    ∀ p l : Nat, l ≤ 129 → 129 < l + n →
      genMBRAux rf0 3 p l (List.replicate n logiDict) =
        .error "Maximum logical partitions have been exceeded" := by
  induction n with
  | zero => intro p l h1 h2; omega
  | succ n ih =>
    intro p l h1 h2
    rw [List.replicate_succ]
    unfold genMBRAux
    rw [mbrRoleStep_logi]
    by_cases hl : l > MBR_LOGICAL_MAX
    · rw [if_pos hl]
    · rw [if_neg hl]
      have hgen : generatePartition rf0 "logical" logiDict = .ok logiPart := by decide
      simp only [hgen]
      rw [ih p (l + 1) (by simp only [MBR_LOGICAL_MAX] at hl; omega) (by omega)]

/-- C6 evaluation: the source names the bound MBR_LOGICAL_MAX = 128 and its own
docstring promises up to 128 logical partitions, but the pre-increment strict
comparison lets a 129th logical partition through: 129 explicit-logical
partitions generate successfully and only the 130th fails. -/
theorem claim6_logical_limit_eval :
    MBR_LOGICAL_MAX = 128 ∧
    maxPrimary (List.replicate 129 logiDict) = 3 ∧
    generateMbrPartitions rf0 (List.replicate 129 logiDict) =
      .ok (List.replicate 129 logiPart) ∧
    (List.replicate 129 logiPart).length = 129 ∧
    generateMbrPartitions rf0 (List.replicate 130 logiDict) =
      .error "Maximum logical partitions have been exceeded" := by
  have hmax129 : maxPrimary (List.replicate 129 logiDict) = 3 := by
    simp [maxPrimary, hasLogical]
  have hmax130 : maxPrimary (List.replicate 130 logiDict) = 3 := by
    simp [maxPrimary, hasLogical]
  refine ⟨rfl, hmax129, ?_, by simp, ?_⟩
  · unfold generateMbrPartitions
    rw [hmax129]
    exact genMBRAux_logical_ok 129 0 0 (by omega)
  · unfold generateMbrPartitions
    rw [hmax130]
    exact genMBRAux_logical_err 130 0 0 (by omega) (by omega)

/-! ### Claim theorems: logical-volume ordering -/

/-- stableInsert permutes the element into the list. -/
theorem stableInsert_perm {α : Type} (key : α → Nat) (x : α) (l : List α) :
    (stableInsert key x l).Perm (x :: l) := by
  induction l with
  | nil => simp [stableInsert]
  | cons y ys ih =>
    by_cases h : key x ≤ key y
    · simp [stableInsert, h]
    · simp only [stableInsert, if_neg h]
      exact (ih.cons y).trans (List.Perm.swap x y ys)

/-- The stable sort is a permutation of its input. -/
theorem stableSortKey_perm {α : Type} (key : α → Nat) (l : List α) :
    (stableSortKey key l).Perm l := by
  induction l with
  | nil => simp [stableSortKey]
  | cons x xs ih => exact (stableInsert_perm key x _).trans (ih.cons x)

/-- stableInsert keeps the list sorted by key. -/
theorem stableInsert_pairwise {α : Type} (key : α → Nat) (x : α) {l : List α}
    (h : l.Pairwise (fun a b => key a ≤ key b)) :
    (stableInsert key x l).Pairwise (fun a b => key a ≤ key b) := by
  induction l with
  | nil => simp [stableInsert]
  | cons y ys ih =>
    rcases List.pairwise_cons.mp h with ⟨hy, hys⟩
    by_cases hxy : key x ≤ key y
    · simp only [stableInsert, if_pos hxy]
      refine List.pairwise_cons.mpr ⟨?_, h⟩
      intro b hb
      rcases List.mem_cons.mp hb with hb | hb
      · exact hb ▸ hxy
      · exact le_trans hxy (hy b hb)
    · simp only [stableInsert, if_neg hxy]
      refine List.pairwise_cons.mpr ⟨?_, ih hys⟩
      intro b hb
      have hb' : b ∈ x :: ys := (stableInsert_perm key x ys).subset hb
      rcases List.mem_cons.mp hb' with hb' | hb'
      · exact hb' ▸ le_of_not_le hxy
      · exact hy b hb'

/-- The stable sort is sorted by key. -/
theorem stableSortKey_pairwise {α : Type} (key : α → Nat) (l : List α) :
    (stableSortKey key l).Pairwise (fun a b => key a ≤ key b) := by
  induction l with
  | nil => simp [stableSortKey]
  | cons x xs ih => exact stableInsert_pairwise key x ih

/-- Filtering a key class commutes with stableInsert when the element belongs
to the class. -/
theorem stableInsert_filter_eq {α : Type} (key : α → Nat) (k : Nat) (x : α) (l : List α)
    (hx : key x = k) :
    (stableInsert key x l).filter (fun a => key a == k) =
      x :: l.filter (fun a => key a == k) := by
  induction l with
  | nil => simp [stableInsert, List.filter, hx]
  | cons y ys ih =>
    by_cases hxy : key x ≤ key y
    · have h1 : stableInsert key x (y :: ys) = x :: y :: ys := by
        simp only [stableInsert, if_pos hxy]
      have hxk : (key x == k) = true := by simpa using hx
      rw [h1, List.filter_cons, if_pos hxk]
    · have hyk : ¬(key y == k) = true := by
        have : key y < key x := lt_of_not_le hxy
        simp only [beq_iff_eq]
        omega
      simp only [stableInsert, if_neg hxy, List.filter_cons]
      rw [if_neg hyk, if_neg hyk, ih]

/-- Filtering a key class commutes with stableInsert when the element does not
belong to the class. -/
theorem stableInsert_filter_ne {α : Type} (key : α → Nat) (k : Nat) (x : α) (l : List α)
    (hx : ¬ key x = k) :
    (stableInsert key x l).filter (fun a => key a == k) =
      l.filter (fun a => key a == k) := by
  have hxk : ¬(key x == k) = true := by simpa using hx
  induction l with
  | nil => simp [stableInsert, List.filter, hxk]
  | cons y ys ih =>
    by_cases hxy : key x ≤ key y
    · simp only [stableInsert, if_pos hxy, List.filter_cons]
      rw [if_neg hxk]
    · simp only [stableInsert, if_neg hxy, List.filter_cons]
      rw [ih]

/-- Stability: the stable sort leaves every key class in declaration order. -/
theorem stableSortKey_filter {α : Type} (key : α → Nat) (k : Nat) (l : List α) :
    (stableSortKey key l).filter (fun a => key a == k) =
      l.filter (fun a => key a == k) := by
  induction l with
  | nil => simp [stableSortKey]
  | cons x xs ih =>
    by_cases hx : key x = k
    · rw [show stableSortKey key (x :: xs) = stableInsert key x (stableSortKey key xs) from rfl,
        stableInsert_filter_eq key k x _ hx, ih, List.filter_cons]
      simp [hx]
    · rw [show stableSortKey key (x :: xs) = stableInsert key x (stableSortKey key xs) from rfl,
        stableInsert_filter_ne key k x _ hx, ih, List.filter_cons]
      have hxk : ¬(key x == k) = true := by simpa using hx
      rw [if_neg hxk]

/-- A successful processVG attaches exactly the logical volumes generated from
the depth-sorted declaration list. -/
theorem processVG_lvs {rf : String → Bool} {pvLinker : List (String × Partition)}
    {vg : VGDict} {vgm : VGModel} {lvds : List LVDict}
    (hlv : vg.logical_volumes = some lvds) (h : processVG rf pvLinker vg = .ok vgm) :
    mapEx (generateLV rf) (stableSortKey mountDepth lvds) = .ok vgm.logical_volumes := by
  unfold processVG at h
  split at h
  · exact absurd h (by simp)
  · split at h
    · exact absurd h (by simp)
    · rw [hlv] at h
      cases hlvs : mapEx (generateLV rf) (stableSortKey mountDepth lvds) with
      | error e => simp [hlvs] at h
      | ok lvs =>
        simp only [hlvs] at h
        have h' := Except.ok.inj h
        rw [← h']

/-- The three concrete logical-volume declarations of the claim, in declared
order: mounted at /var/log, at /, and at /var. -/
def lvVarLog : LVDict := ⟨"lv1", "1GiB", none, some "/var/log", some 0⟩

/-- The concrete logical volume mounted at the root. -/
def lvRoot : LVDict := ⟨"lv2", "1GiB", none, some "/", some 0⟩

/-- The concrete logical volume mounted at /var. -/
def lvVar : LVDict := ⟨"lv3", "1GiB", none, some "/var", some 0⟩

/-- A partition registered in the lvm linker for the concrete volume group. -/
def pvPart : Partition := ⟨"primary", .raw "100", some ["lvm"], none, none, .disabled⟩

/-- The concrete volume group declaring its logical volumes in the order
/var/log, /, /var. -/
def vgExample : VGDict := ⟨"vg0", none, ["pv0"], some [lvVarLog, lvRoot, lvVar]⟩

/-- C7: the attached logical volumes of every volume group are exactly the
generated images of the declared list stably sorted by mount-point separator
count (a permutation, ascending in depth, each depth class kept in declaration
order, volumes without a mount point carrying depth 0); in the concrete group
declaring /var/log, /, /var the attachment order is /, /var, /var/log. -/
theorem claim7_lv_mount_order :
    (∀ lvds : List LVDict, (stableSortKey mountDepth lvds).Perm lvds) ∧
    (∀ lvds : List LVDict,
      (stableSortKey mountDepth lvds).Pairwise (fun a b => mountDepth a ≤ mountDepth b)) ∧
    (∀ (lvds : List LVDict) (k : Nat),
      (stableSortKey mountDepth lvds).filter (fun a => mountDepth a == k) =
        lvds.filter (fun a => mountDepth a == k)) ∧
    (∀ lv : LVDict, lv.mount_point = none → mountDepth lv = 0) ∧
    (∀ (rf : String → Bool) (pvLinker : List (String × Partition)) (vg : VGDict)
        (vgm : VGModel) (lvds : List LVDict),
      vg.logical_volumes = some lvds → processVG rf pvLinker vg = .ok vgm →
      mapEx (generateLV rf) (stableSortKey mountDepth lvds) = .ok vgm.logical_volumes) ∧
    ((generateVolumeGroupModels rf0 [("pv0", pvPart)] [vgExample]).map
        (fun ms => ms.map (fun m => m.logical_volumes.map LogicalVolume.mount_point)) =
      .ok [[some "/", some "/var", some "/var/log"]]) := by
  refine ⟨stableSortKey_perm mountDepth, stableSortKey_pairwise mountDepth,
    fun lvds k => stableSortKey_filter mountDepth k lvds, ?_,
    fun rf lk vg vgm lvds hlv h => processVG_lvs hlv h, by decide⟩
  intro lv hmp
  simp [mountDepth, hmp]

/-- Witness for C7: the attachment clause discharged on the concrete volume
group, whose declared order /var/log, /, /var is reordered to /, /var,
/var/log. -/
theorem claim7_lv_mount_order_witness :
    mapEx (generateLV rf0) (stableSortKey mountDepth [lvVarLog, lvRoot, lvVar]) =
      .ok [⟨"lv2", .raw "1GiB", none, some "/", 0⟩,
           ⟨"lv3", .raw "1GiB", none, some "/var", 0⟩,
           ⟨"lv1", .raw "1GiB", none, some "/var/log", 0⟩] :=
  claim7_lv_mount_order.2.2.2.2.1 rf0 [("pv0", pvPart)] vgExample
    ⟨"vg0", "4MiB", [pvPart],
      [⟨"lv2", .raw "1GiB", none, some "/", 0⟩,
       ⟨"lv3", .raw "1GiB", none, some "/var", 0⟩,
       ⟨"lv1", .raw "1GiB", none, some "/var/log", 0⟩]⟩
    [lvVarLog, lvRoot, lvVar] rfl (by decide)

/-! ### Claim theorems: fsck pass policy -/

/-- C3 counterexample: a partition declaring an explicit fsck_option of 2 but
no filesystem receives the disabled sentinel, not the explicit value, so an
explicit fsck_option is not always used verbatim. -/
theorem claim3_counterexample :
    generatePartition rf0 "primary"
        ⟨some "p1", "100", none, some [], none, some "/var", some 2⟩ =
      .ok ⟨"primary", .raw "100", some [], none, some "/var", .disabled⟩ ∧
    (⟨some "p1", "100", none, some [], none, some "/var", some 2⟩ : PartDict).fsck_option =
      some 2 ∧
    FsckOption.disabled ≠ FsckOption.pass 2 :=
  ⟨by decide, rfl, by decide⟩

/-- C3 amended: with a filesystem attached an explicit fsck_option is used
verbatim (and logical volumes use it even without one); a checking filesystem
at the root yields pass 1, at any other non-empty mount point pass 2, no check
or no mount point pass 0; a partition or RAID device with no filesystem always
receives the disabled sentinel, distinct from every integer pass, even when an
explicit option is configured; a logical volume with neither filesystem nor
explicit option fails. -/
theorem claim3_amended :
    (∀ (f : FSObject) (k : Int) (mp : Option String), fsckPass (some f) (some k) mp = .ok k) ∧
    (∀ (k : Int) (mp : Option String), fsckPass none (some k) mp = .ok k) ∧
    (∀ f : FSObject, f.require_fsck = true → fsckPass (some f) none (some "/") = .ok 1) ∧
    (∀ (f : FSObject) (s : String), f.require_fsck = true → s ≠ "" → s ≠ "/" →
      fsckPass (some f) none (some s) = .ok 2) ∧
    (∀ (f : FSObject) (mp : Option String),
      f.require_fsck = false ∨ truthyStr mp = false → fsckPass (some f) none mp = .ok 0) ∧
    (∀ mp : Option String, fsckPass none none mp = .error "AttributeError") ∧
    (∀ (rf : String → Bool) (t : String) (d : PartDict) (p : Partition),
      d.file_system = none → generatePartition rf t d = .ok p → p.fsck_option = .disabled) ∧
    (∀ (rf : String → Bool) (t : String) (d : PartDict) (fd : FSDict) (fo : FSObject)
        (p : Partition) (v : Int),
      d.file_system = some fd → generateFileSystem rf fd = .ok fo →
      fsckPass (some fo) d.fsck_option d.mount_point = .ok v →
      generatePartition rf t d = .ok p → p.fsck_option = .pass v) ∧
    (∀ (rf : String → Bool) (explicit : Option Int) (mp : Option String),
      raidFsckOption rf none explicit mp = .ok .disabled) ∧
    (∀ (rf : String → Bool) (fd : FSDict) (fo : FSObject) (explicit : Option Int)
        (mp : Option String) (v : Int),
      generateFileSystem rf fd = .ok fo → fsckPass (some fo) explicit mp = .ok v →
      raidFsckOption rf (some fd) explicit mp = .ok (.pass v)) ∧
    (∀ n : Int, FsckOption.disabled ≠ FsckOption.pass n) := by
  refine ⟨fun f k mp => rfl, fun k mp => rfl, ?_, ?_, ?_, fun mp => rfl, ?_, ?_, ?_, ?_, ?_⟩
  · intro f h
    have ht : truthyStr (some "/") = true := by decide
    simp [fsckPass, h, ht]
  · intro f s h1 h2 h3
    have hs : (s == "") = false := by
      simpa using h2
    simp [fsckPass, truthyStr, h1, hs, h3]
  · intro f mp h
    rcases h with h | h
    · simp [fsckPass, h]
    · simp [fsckPass, h]
  · intro rf t d p hfs h
    cases hsz : generateSize d.size with
    | error e =>
      unfold generatePartition at h
      simp [hfs, hsz] at h
    | ok sz =>
      unfold generatePartition at h
      simp only [hfs, hsz] at h
      have h' := Except.ok.inj h
      rw [← h']
  · intro rf t d fd fo p v hfs hfo hpass h
    cases hsz : generateSize d.size with
    | error e =>
      unfold generatePartition at h
      simp [hfs, hfo, hpass, hsz, Except.map] at h
    | ok sz =>
      unfold generatePartition at h
      simp only [hfs, hfo, hpass, hsz, Except.map] at h
      have h' := Except.ok.inj h
      rw [← h']
  · intro rf explicit mp
    rfl
  · intro rf fd fo explicit mp v hfo hpass
    unfold raidFsckOption
    simp only [hfo, hpass, Except.map]
  · intro n h
    exact FsckOption.noConfusion h

/-- Witness for C3 amended: the pass-2 clause at a checking filesystem mounted
at /var. -/
theorem claim3_amended_witness :
    fsckPass (some ⟨"ext4", true⟩) none (some "/var") = .ok 2 :=
  claim3_amended.2.2.2.1 ⟨"ext4", true⟩ "/var" rfl (by decide) (by decide)

/-! ### Claim theorems: create_partition placement -/

/-- C4 counterexample: creating a logical partition on an msdos table with no
partition at all does not use the configured start and number 1; the extended
partition is created first, the start advances by another partition_start and
the number becomes 5. -/
theorem claim4_counterexample :
    createPartition "msdos" 10000000000 1048576 1048576 [] "logical" 5242880 =
      .ok ⟨some (1048576, 9999999999), 2097152, 6291456, 5⟩ ∧
    (2097152 : Int) ≠ 1048576 ∧ (5 : Int) ≠ 1 :=
  ⟨by decide, by decide, by decide⟩

/-- C4 amended: outside the msdos-logical-without-extended special case, the
start is the configured partition-start with number 1 when no partition
exists, and lastEnd plus (alignment minus lastEnd mod alignment) with the next
number otherwise; in the special case on an empty table the start advances by
partition_start and the number is 5; the concrete alignment example computes
start 2097152. -/
theorem claim4_amended :
    (∀ (label : String) (tS pS al : Int) (parts : List PartInfo) (tn : String) (sz : Int)
        (r : CreateResult),
      ¬(tn = "logical" ∧ label = "msdos" ∧ extendedPartitionOf label parts = none) →
      createPartition label tS pS al parts tn sz = .ok r →
      ((lastPartitionOf parts = none → r.startB = pS ∧ r.number = 1) ∧
       (∀ lp : PartInfo, lastPartitionOf parts = some lp →
         r.startB = lp.endB + (al - lp.endB % al) ∧ r.number = lp.number + 1))) ∧
    (∀ (tS pS al sz : Int) (r : CreateResult),
      createPartition "msdos" tS pS al [] "logical" sz = .ok r →
      r.number = 5 ∧ r.startB = pS + pS ∧ r.extendedMk = some (pS, tS - 1)) ∧
    (createPartition "gpt" 1000000000000 1048576 1048576
        [⟨1, 0, 1500000, 1500000, none⟩] "p1" 1000 =
      .ok ⟨none, 2097152, 2098152, 2⟩) := by
  refine ⟨?_, ?_, by decide⟩
  · intro label tS pS al parts tn sz r hneg h
    unfold createPartition at h
    constructor
    · intro hlast
      simp only [hlast] at h
      by_cases hbig : pS + sz ≥ tS
      · rw [if_pos hbig] at h
        exact absurd h (by simp)
      · rw [if_neg hbig, if_neg hneg] at h
        have h' := Except.ok.inj h
        rw [← h']
        simp
    · intro lp hlast
      by_cases hz : al = 0
      · simp [hlast, hz] at h
      · simp only [hlast, if_neg hz] at h
        by_cases hbig : lp.endB + (al - lp.endB % al) + sz ≥ tS
        · rw [if_pos hbig] at h
          exact absurd h (by simp)
        · rw [if_neg hbig, if_neg hneg] at h
          have h' := Except.ok.inj h
          rw [← h']
          simp
  · intro tS pS al sz r h
    unfold createPartition at h
    simp only [show lastPartitionOf ([] : List PartInfo) = none from rfl] at h
    split at h
    · exact absurd h (by simp)
    · split at h
      · have h' := Except.ok.inj h
        rw [← h']
        simp
      · rename_i hc
        exact absurd ⟨trivial, trivial, rfl⟩ hc

/-- Witness for C4 amended: both placement clauses discharged at the concrete
aligned example. -/
theorem claim4_amended_witness :
    ((⟨none, 2097152, 2098152, 2⟩ : CreateResult).startB =
        1500000 + ((1048576 : Int) - 1500000 % 1048576) ∧
      (⟨none, 2097152, 2098152, 2⟩ : CreateResult).number = 1 + 1) :=
  (claim4_amended.1 "gpt" 1000000000000 1048576 1048576 [⟨1, 0, 1500000, 1500000, none⟩]
      "p1" 1000 ⟨none, 2097152, 2098152, 2⟩ (by decide) (by decide)).2
    ⟨1, 0, 1500000, 1500000, none⟩ (by decide)

/-! ### Claim theorems: disk-label auto-selection -/

/-- C1 counterexample: a label-free table bound to the first enumerated disk of
size exactly 2 times 2 to the 40, on a non-UEFI host with insertion not
suppressed, is labelled gpt but receives no BIOS boot partition because its
partition list is empty. -/
theorem claim1_counterexample :
    setDiskLabels false ⟨[⟨"sda", 2 * 2 ^ 40⟩], [⟨"sda", 2 * 2 ^ 40⟩]⟩
        ⟨[⟨"first", none, none, none, []⟩], false⟩ =
      .ok ⟨[⟨"first", some "gpt", none, none, []⟩], false⟩ ∧
    (⟨"first", some "gpt", none, none, []⟩ : TableDict).partitions = [] :=
  ⟨by decide, rfl⟩

/-- C1 amended: on a non-UEFI host, a label-free table whose resolved disk
holds at least 2 times 2 to the 40 bytes is labelled gpt, and the BIOS boot
partition is prepended exactly when insertion is not suppressed, the disk is
the first enumerated one, the partition list is non-empty and its head does not
already carry the bios_grub flag; below the threshold the label is msdos and
the partitions are untouched. -/
theorem claim1_amended :
    (∀ (l : Layout) (noBios : Bool) (t : TableDict) (d : Disk),
      t.label = none → resolveDisk l t = .ok d →
      ((2 * 2 ^ 40 ≤ d.sizeBytes →
         (noBios = true → setDiskLabelTable false l noBios t = .ok { t with label := some "gpt" }) ∧
         (noBios = false → ∀ i : Nat, diskIndex l d.devname = .ok i →
            setDiskLabelTable false l noBios t =
              .ok { (if i = 0 then addBiosBootPartition t else t) with label := some "gpt" })) ∧
       (d.sizeBytes < 2 * 2 ^ 40 →
         setDiskLabelTable false l noBios t = .ok { t with label := some "msdos" }))) ∧
    (∀ t : TableDict, t.partitions = [] → addBiosBootPartition t = t) ∧
    (∀ (t : TableDict) (p0 : PartDict) (ps : List PartDict), t.partitions = p0 :: ps →
      ((p0.flags.getD []).contains "bios_grub" = true → addBiosBootPartition t = t) ∧
      ((p0.flags.getD []).contains "bios_grub" = false →
        addBiosBootPartition t = { t with partitions := biosBootDict :: p0 :: ps })) ∧
    (∀ (hasEfi : Bool) (l : Layout) (cfg : LayoutConfig) (ts : List TableDict),
      mapEx (setDiskLabelTable hasEfi l cfg.no_bios_boot_partition) cfg.partition_tables =
        .ok ts →
      setDiskLabels hasEfi l cfg = .ok { cfg with partition_tables := ts }) := by
  refine ⟨?_, ?_, ?_, ?_⟩
  · intro l noBios t d hl hres
    constructor
    · intro hsize
      have hover : over_2t d.sizeBytes = true := by
        simp only [over_2t, tebibyte, ge_iff_le, decide_eq_true_eq]
        norm_num at hsize ⊢
        linarith
      constructor
      · intro hnb
        subst hnb
        unfold setDiskLabelTable
        simp [hres, hover]
      · intro hnb i hi
        subst hnb
        unfold setDiskLabelTable
        simp only [hres, Bool.not_false, if_true, hover, hi]
    · intro hsize
      have hover : over_2t d.sizeBytes = false := by
        simp only [over_2t, tebibyte, ge_iff_le, decide_eq_false_iff_not, not_le]
        norm_num at hsize ⊢
        linarith
      have hne : ¬(t.label = some "gpt") := by
        rw [hl]
        simp
      unfold setDiskLabelTable
      simp [hres, hover, if_neg hne]
  · intro t h
    unfold addBiosBootPartition
    simp only [h]
  · intro t p0 ps h
    constructor
    · intro hflag
      unfold addBiosBootPartition
      simp only [h, hflag, if_true]
    · intro hflag
      unfold addBiosBootPartition
      have hm : ¬("bios_grub" ∈ p0.flags.getD []) := by simpa using hflag
      simp [h, hm]
  · intro hasEfi l cfg ts h
    unfold setDiskLabels
    simp only [h]

/-- Witness for C1 amended: the gpt-and-insert clause discharged on a concrete
first-disk table with one declared partition. -/
theorem claim1_amended_witness :
    setDiskLabelTable false ⟨[⟨"sda", 2 * 2 ^ 40⟩], [⟨"sda", 2 * 2 ^ 40⟩]⟩ false
        ⟨"first", none, none, none, [noRoleDict]⟩ =
      .ok { (if (0 : Nat) = 0 then
              addBiosBootPartition ⟨"first", none, none, none, [noRoleDict]⟩
            else ⟨"first", none, none, none, [noRoleDict]⟩) with label := some "gpt" } :=
  ((claim1_amended.1 ⟨[⟨"sda", 2 * 2 ^ 40⟩], [⟨"sda", 2 * 2 ^ 40⟩]⟩ false
      ⟨"first", none, none, none, [noRoleDict]⟩ ⟨"sda", 2 * 2 ^ 40⟩ rfl (by decide)).1
    (by norm_num)).2 rfl 0 (by decide)

/-! ### Claim theorems: OMSA RedHat flows -/

/-- C9 counterexample: the RHEL6 variant ignores the result of the package
install, so a target that reports failure for every package set still completes
the run without a package-specific error. -/
theorem claim9_counterexample :
    runOMSARHEL6 none ⟨"PowerEdge R720", fun _ => true⟩ =
      .ok [.baselineYum none, .installWget, .bootstrap omsaBootstrapUrl none,
           .installPackages ["srvadmin-all", "srvadmin-idrac7", "srvadmin-idracadm7"],
           .serviceStop "sblim-sfcb", .serviceStop "dataeng", .revertYum none] ∧
    (RHTarget.installFails ⟨"PowerEdge R720", fun _ => true⟩)
        ["srvadmin-all", "srvadmin-idrac7", "srvadmin-idracadm7"] = true :=
  ⟨rfl, rfl⟩

/-- C9 amended: the computed package set is the base agent package plus the two
iDRAC packages when the product name contains a gen-12 chassis substring; the
base and RHEL7 run fails with the package-specific error naming that set
whenever the target reports the install failed, and succeeds otherwise; the
RHEL6 run never fails on install, running the install and the two service
stops unconditionally. -/
theorem claim9_amended :
    (∀ pn : String, containsSub "R720" pn = false → containsSub "R820" pn = false →
      openManagePackages pn = ["srvadmin-all"]) ∧
    (∀ pn : String, containsSub "R720" pn = true ∨ containsSub "R820" pn = true →
      "srvadmin-all" ∈ openManagePackages pn ∧
      "srvadmin-idrac7" ∈ openManagePackages pn ∧
      "srvadmin-idracadm7" ∈ openManagePackages pn) ∧
    (∀ (proxy : Option String) (t : RHTarget),
      t.installFails (openManagePackages t.product_name) = true →
      runOMSARedHat proxy t = .error (.installFailed (openManagePackages t.product_name))) ∧
    (∀ (proxy : Option String) (t : RHTarget),
      t.installFails (openManagePackages t.product_name) = false →
      runOMSARedHat proxy t =
        .ok [.baselineYum proxy, .installWget, .bootstrap omsaBootstrapUrl proxy,
             .installPackages (openManagePackages t.product_name), .revertYum proxy]) ∧
    (∀ (proxy : Option String) (t : RHTarget),
      runOMSARHEL6 proxy t =
        .ok [.baselineYum proxy, .installWget, .bootstrap omsaBootstrapUrl proxy,
             .installPackages (openManagePackages t.product_name),
             .serviceStop "sblim-sfcb", .serviceStop "dataeng", .revertYum proxy]) := by
  refine ⟨?_, ?_, ?_, ?_, fun proxy t => rfl⟩
  · intro pn h1 h2
    simp [openManagePackages, gen12Chassis, baseOmsaPackages, h1, h2]
  · intro pn h
    by_cases h1 : containsSub "R720" pn = true
    · by_cases h2 : containsSub "R820" pn = true
      · simp [openManagePackages, gen12Chassis, baseOmsaPackages, gen12OmsaPackages, h1, h2]
      · simp [openManagePackages, gen12Chassis, baseOmsaPackages, gen12OmsaPackages, h1, h2]
    · rcases h with h | h
      · exact absurd h h1
      · simp [openManagePackages, gen12Chassis, baseOmsaPackages, gen12OmsaPackages, h1, h]
  · intro proxy t h
    simp [runOMSARedHat, installOpenmanageRedHat, h]
  · intro proxy t h
    simp [runOMSARedHat, installOpenmanageRedHat, h]

/-- Witness for C9 amended: the failing-install clause at a concrete target
whose installer always reports failure. -/
theorem claim9_amended_witness :
    runOMSARedHat none ⟨"R730xd", fun _ => true⟩ =
      .error (.installFailed (openManagePackages "R730xd")) :=
  claim9_amended.2.2.1 none ⟨"R730xd", fun _ => true⟩ rfl

end Press







